import Mathlib

/-!
Shallow embedding of `src/eval_runner.py` (Norwegian LLM Evaluation
Framework) and verification of the frozen claims about it.

The program loads test records from a JSONL file, queries a list of
models through a local HTTP endpoint, accumulates results in memory,
rewrites a JSON snapshot after every test case, and finally exports a
tab-separated CSV.

Modelling conventions:
* External effects (HTTP request outcome, JSON-line parsing,
  wall-clock timestamp) are parameters of the embedded functions.
* A Python dict keyed by strings is an association list with
  insert-or-overwrite semantics (`dictSet` / `dictGet`), preserving
  insertion order as CPython does.
* Writing a file is recorded as data: the list of snapshot values
  written (one per completed test case) and the CSV text produced,
  together with a flag recording whether the CSV loop aborted with an
  unhandled exception.
-/

namespace EvalRunner

/-- Python dict assignment `d[k] = v`: overwrite in place if the key is
present (keeping its position), otherwise append at the end. -/
def dictSet (d : List (String × String)) (k v : String) : List (String × String) :=
  if d.any (fun p => p.1 == k) then
    d.map (fun p => if p.1 == k then (k, v) else p)
  else
    d ++ [(k, v)]

/-- Python `d.get(k, dflt)`. -/
def dictGet (d : List (String × String)) (k : String) (dflt : String) : String :=
  match d.find? (fun p => p.1 == k) with
  | some p => p.2
  | none => dflt

/-- Python `d.get(k)` (no default): `some` value, or `none` when the key
is absent. -/
def dictGet? (d : List (String × String)) (k : String) : Option String :=
  (d.find? (fun p => p.1 == k)).map (fun p => p.2)

/-! ## Inference Client: `query_ollama`

The body is one `requests.post` inside `try/except`.  The outcome of
the external HTTP call is modelled by `RequestOutcome`:
`timeout` is `requests.exceptions.Timeout`; `failure e` is any other
exception (connection refused, malformed JSON payload, ...) with
`str(e) = e`; `success fields` is a call whose payload parsed to a JSON
object with the given string fields. -/

inductive RequestOutcome where
  | timeout : RequestOutcome
  | failure (desc : String) : RequestOutcome
  | success (fields : List (String × String)) : RequestOutcome
deriving DecidableEq

/-- `query_ollama`: total over its failure modes, always returns one
string.  On success it does `data.get("response", "[NO RESPONSE]")`;
`requests.exceptions.Timeout` yields `"[TIMEOUT]"`; any other exception
`e` yields `f"[ERROR: {e}]"`. -/
def query_ollama (outcome : RequestOutcome) : String :=
  match outcome with
  | .success fields =>
      match dictGet? fields "response" with
      | some v => v
      | none => "[NO RESPONSE]"
  | .timeout => "[TIMEOUT]"
  | .failure e => "[ERROR: " ++ e ++ "]"

/-! ## Test Loader: `load_tests`

A parsed JSONL record, restricted to the fields the program reads.
Each field is `none` when absent from the record and `some s` when
present with string value `s`. -/

structure Record where
  id : Option String
  question : Option String
  q : Option String
  category : Option String
deriving DecidableEq, Repr

/-- Python truthiness-based `a or b` on the results of two `dict.get`
calls: the first operand wins unless it is falsy (`None` or `""`). -/
def pyOr (a b : Option String) : Option String :=
  match a with
  | some s => if s.isEmpty then b else some s
  | none => b

/-- A character Python's `str.strip()` removes by default. -/
def isPySpace (c : Char) : Bool :=
  c == ' ' || c == '\t' || c == '\n' || c == '\x0d' || c == '\x0b' || c == '\x0c'

/-- Python `line.strip()` being falsy: stripping leading and trailing
whitespace leaves nothing, i.e. every character is whitespace. -/
def isBlank (l : String) : Bool :=
  l.data.all isPySpace

/-- The loop of `load_tests`: iterate the file's lines, skip blank ones,
parse the rest with `json.loads` (modelled by the `parse` parameter);
a parse exception propagates, discarding everything. -/
def loadLoop (parse : String → Except String Record) (lines : List String)
    (acc : List Record) : Except String (List Record) :=
  match lines with
  | [] => .ok acc
  | l :: rest =>
      if isBlank l then
        loadLoop parse rest acc
      else
        match parse l with
        | .error e => .error e
        | .ok r => loadLoop parse rest (acc ++ [r])

/-- `load_tests`: read the file's lines and accumulate parsed records. -/
def load_tests (parse : String → Except String Record) (lines : List String) :
    Except String (List Record) :=
  loadLoop parse lines []

/-! ## Evaluation Driver: `run_evaluation` -/

/-- One per-TestCase result bundle
`{id, question, category, responses}` as built by the driver loop.
`question` is `Option String` because
`test.get("question") or test.get("q")` can be `None`. -/
structure TestResult where
  id : String
  question : Option String
  category : String
  responses : List (String × String)
deriving DecidableEq, Repr

/-- The in-memory `results` aggregate (and the value serialized into the
JSON snapshot file on every rewrite). -/
structure EvaluationRun where
  timestamp : String
  models : List String
  tests : List TestResult
deriving DecidableEq, Repr

/-- A model client: takes the backend id and the prompt (possibly
`None`), returns the response string.  In the program this is
`query_ollama`, which never raises; claims stub it. -/
abbrev Client := String → Option String → String

/-- Build one TestCase's bundle: resolve the fields
(`test.get("id", "unknown")`,
`test.get("question") or test.get("q")`,
`test.get("category", "general")`) and query every model in order,
storing each response under the model's display name. -/
def processTest (client : Client) (models : List (String × String))
    (test : Record) : TestResult :=
  let id := test.id.getD "unknown"
  let question := pyOr test.question test.q
  let category := test.category.getD "general"
  let responses := models.foldl
    (fun d m => dictSet d m.1 (client m.2 question)) []
  { id := id, question := question, category := category, responses := responses }

/-- The driver's outer loop: for each test build its bundle, append it
to the run, and record the full JSON snapshot written at that point
(the file is rewritten whole after every test).  Returns the final
bundle list and the list of snapshot contents in write order. -/
def runLoop (client : Client) (models : List (String × String))
    (tests : List Record) (acc : List TestResult)
    (snaps : List (List TestResult)) :
    List TestResult × List (List TestResult) :=
  match tests with
  | [] => (acc, snaps)
  | t :: rest =>
      let tr := processTest client models t
      let acc2 := acc ++ [tr]
      runLoop client models rest acc2 (snaps ++ [acc2])

/-! ## Result Exporter: the CSV block of `run_evaluation` -/

/-- Python `s.replace(pat, rep)` for a one-character pattern and a
one-character replacement: every occurrence of the character is
replaced (single-character occurrences never overlap). -/
def pyReplace (s : String) (pat rep : Char) : String :=
  String.mk (s.data.map (fun c => if c == pat then rep else c))

/-- `s.replace("\t", " ").replace("\n", " ")`. -/
def sanitize (s : String) : String :=
  pyReplace (pyReplace s '\t' ' ') '\n' ' '

/-- Python `s[:n]`: the first `n` code points of the string (all of it
when it is shorter). -/
def pyTake (s : String) (n : Nat) : String :=
  String.mk (s.data.take n)

/-- One CSV data row.  `none` models the `AttributeError` raised by
`test["question"].replace(...)` when the question is `None`; note the
`id` and `category` cells are written verbatim, only the question and
the response cells are sanitized, and only response cells are truncated
(`[:500]`). -/
def csvRow (modelNames : List String) (tr : TestResult) : Option String :=
  match tr.question with
  | none => none
  | some q =>
      let base := [tr.id, tr.category, sanitize q]
      let cells := modelNames.map
        (fun name => pyTake (sanitize (dictGet tr.responses name "")) 500)
      some ("\t".intercalate (base ++ cells) ++ "\n")

/-- The CSV row loop: write rows until done, or stop where the
unhandled `AttributeError` aborts the process.  Returns the text
written so far and whether the loop aborted. -/
def csvLoop (modelNames : List String) (tests : List TestResult)
    (acc : String) : String × Bool :=
  match tests with
  | [] => (acc, false)
  | t :: rest =>
      match csvRow modelNames t with
      | none => (acc, true)
      | some r => csvLoop modelNames rest (acc ++ r)

/-- The CSV export: header row then one row per bundle in run order.
The second component is `true` when the export aborted with an
unhandled error partway through. -/
def csvExport (run : EvaluationRun) : String × Bool :=
  let header := "\t".intercalate (["ID", "Category", "Question"] ++ run.models) ++ "\n"
  csvLoop run.models run.tests header

/-- Everything `run_evaluation` produces: the returned results value,
the sequence of JSON snapshot contents written (one per completed
test), and the CSV file outcome. -/
structure RunOutput where
  results : EvaluationRun
  snapshots : List EvaluationRun
  csv : String × Bool
deriving DecidableEq, Repr

/-- `run_evaluation(tests, models)`: build every bundle sequentially
(rewriting the snapshot after each test), then generate the CSV.
`timestamp` stands for `datetime.now().isoformat()`. -/
def run_evaluation (client : Client) (timestamp : String)
    (tests : List Record) (models : List (String × String)) : RunOutput :=
  let modelNames := models.map (fun m => m.1)
  let p := runLoop client models tests [] []
  let run : EvaluationRun :=
    { timestamp := timestamp, models := modelNames, tests := p.1 }
  let snapshots := p.2.map
    (fun ts => { timestamp := timestamp, models := modelNames, tests := ts })
  { results := run, snapshots := snapshots, csv := csvExport run }

/-! ## Run Configuration: model catalogs and flag resolution in `main` -/

def NORWEGIAN_MODELS : List (String × String) :=
  [("NB-Llama-3.2-3B", "hf.co/NbAiLab/nb-llama-3.2-3B-Q4_K_M-GGUF:latest")]

def INTERNATIONAL_MODELS : List (String × String) :=
  [("Llama-3.2-3B", "llama3.2:3b"),
   ("Mistral-7B", "mistral:7b"),
   ("Llama-3.1-8B", "llama3.1:8b")]

/-- The model-selection branch of `main`: `if args.norwegian_only ...
elif args.international_only ... else ...`. -/
def select_models (norwegianOnly internationalOnly : Bool) :
    List (String × String) :=
  if norwegianOnly then NORWEGIAN_MODELS
  else if internationalOnly then INTERNATIONAL_MODELS
  else NORWEGIAN_MODELS ++ INTERNATIONAL_MODELS

/-! ## Specification helpers (used only to state and prove properties) -/

/-- The backend id of the last model in the list carrying the given
display name, if any: with Python-dict response storage this is the
model whose response survives under that key. -/
def lastBackend : List (String × String) → String → Option String
  | [], _ => none
  | m :: rest, name =>
      match lastBackend rest name with
      | some b => some b
      | none => if m.1 == name then some m.2 else none

/-- The sequence of bundle-list prefixes the driver loop writes to the
snapshot file, starting from accumulated bundles `acc`. -/
def snapshotsFrom (f : Record → TestResult) (acc : List TestResult) :
    List Record → List (List TestResult)
  | [] => []
  | t :: rest => (acc ++ [f t]) :: snapshotsFrom f (acc ++ [f t]) rest

/-! ## Helper lemmas -/

theorem dictGet?_dictSet (d : List (String × String)) (k v k' : String) :
    dictGet? (dictSet d k v) k' = if k' == k then some v else dictGet? d k' := by
  unfold dictSet dictGet?
  by_cases hk : k' = k
  · subst hk
    rw [if_pos (beq_self_eq_true k')]
    by_cases hany : d.any (fun p => p.1 == k') = true
    · rw [if_pos hany, List.find?_map]
      obtain ⟨p0, hp0mem, hp0⟩ := List.any_eq_true.mp hany
      have hsome : ∃ q0, d.find? (fun p => (p.1 == k')) = some q0 := by
        cases hf : d.find? fun p => p.1 == k' with
        | none => exact absurd hp0 (by simpa using List.find?_eq_none.mp hf p0 hp0mem)
        | some q0 => exact ⟨q0, rfl⟩
      obtain ⟨q0, hq0⟩ := hsome
      have hpred : ((fun p => p.1 == k') ∘ fun p => if p.1 == k' then (k', v) else p)
          = fun p : String × String => p.1 == k' := by
        funext p
        by_cases hp : p.1 = k'
        · simp [hp]
        · simp [hp]
      rw [hpred, hq0]
      have hq' : q0.1 = k' := by
        have := List.find?_some hq0
        simpa using this
      simp [hq']
    · rw [if_neg hany, List.find?_append]
      have hnone : d.find? (fun p => p.1 == k') = none := by
        rw [List.find?_eq_none]
        intro x hx hpx
        exact hany (List.any_eq_true.mpr ⟨x, hx, hpx⟩)
      simp [hnone, List.find?]
  · have hbk : (k' == k) = false := beq_eq_false_iff_ne.mpr hk
    have hkk : (k == k') = false := beq_eq_false_iff_ne.mpr (fun h => hk h.symm)
    rw [if_neg (show ((k' == k) = true) → False by simp [hbk])]
    by_cases hany : d.any (fun p => p.1 == k) = true
    · rw [if_pos hany, List.find?_map]
      have hpred : ((fun p => p.1 == k') ∘ fun p => if p.1 == k then (k, v) else p)
          = fun p : String × String => p.1 == k' := by
        funext p
        by_cases hp : p.1 = k
        · simp [hp, hkk, beq_eq_false_iff_ne.mpr hk]
        · simp [hp]
      rw [hpred]
      cases hf : d.find? fun p => p.1 == k' with
      | none => simp
      | some q0 =>
          have hq' : q0.1 = k' := by
            have := List.find?_some hf
            simpa using this
          have hne : ¬(q0.1 = k) := fun hc => hk (hq'.symm.trans hc)
          simp [hq', hne, hk]
    · rw [if_neg hany, List.find?_append]
      have hone : List.find? (fun p => p.1 == k') [(k, v)] = none := by
        simp [List.find?, hkk]
      simp [hone]


theorem dictGet_eq_getD (d : List (String × String)) (k dflt : String) :
    dictGet d k dflt = (dictGet? d k).getD dflt := by
  unfold dictGet dictGet?
  cases d.find? (fun p => p.1 == k) <;> rfl

theorem dictGet?_fold (client : Client) (q : Option String) (name : String) :
    ∀ (models : List (String × String)) (d : List (String × String)),
    dictGet? (models.foldl (fun d m => dictSet d m.1 (client m.2 q)) d) name
      = match lastBackend models name with
        | some mid => some (client mid q)
        | none => dictGet? d name := by
  intro models
  induction models with
  | nil => intro d; rfl
  | cons m rest ih =>
      intro d
      rw [List.foldl_cons, ih]
      cases hlb : lastBackend rest name with
      | some mid => simp [lastBackend, hlb]
      | none =>
          simp only [lastBackend, hlb]
          rw [dictGet?_dictSet]
          by_cases hm : name = m.1
          · simp [hm]
          · have h1 : (name == m.1) = false := beq_eq_false_iff_ne.mpr hm
            have h2 : (m.1 == name) = false := beq_eq_false_iff_ne.mpr (fun h => hm h.symm)
            simp [h1, h2]

theorem lastBackend_of_mem (models : List (String × String)) (m : String × String)
    (hm : m ∈ models) : ∃ mid, lastBackend models m.1 = some mid := by
  induction models with
  | nil => cases hm
  | cons m0 rest ih =>
      rcases List.mem_cons.mp hm with h0 | hrest
      · subst h0
        cases hlb : lastBackend rest m.1 with
        | some b => exact ⟨b, by simp [lastBackend, hlb]⟩
        | none => exact ⟨m.2, by simp [lastBackend, hlb]⟩
      · obtain ⟨mid, hmid⟩ := ih hrest
        exact ⟨mid, by simp [lastBackend, hmid]⟩

theorem responses_complete (client : Client) (models : List (String × String))
    (test : Record) (m : String × String) (hm : m ∈ models) :
    ∃ v, dictGet? (processTest client models test).responses m.1 = some v := by
  obtain ⟨mid, hmid⟩ := lastBackend_of_mem models m hm
  refine ⟨client mid (pyOr test.question test.q), ?_⟩
  show dictGet? _ m.1 = _
  unfold processTest
  simp only
  rw [dictGet?_fold]
  simp [hmid]


theorem runLoop_eq (client : Client) (models : List (String × String)) :
    ∀ (tests : List Record) (acc : List TestResult)
      (snaps : List (List TestResult)),
    runLoop client models tests acc snaps
      = (acc ++ tests.map (processTest client models),
         snaps ++ snapshotsFrom (processTest client models) acc tests) := by
  intro tests
  induction tests with
  | nil => intro acc snaps; simp [runLoop, snapshotsFrom]
  | cons t rest ih =>
      intro acc snaps
      rw [runLoop, ih]
      simp [snapshotsFrom]

theorem snapshotsFrom_length (f : Record → TestResult) :
    ∀ (tests : List Record) (acc : List TestResult),
    (snapshotsFrom f acc tests).length = tests.length := by
  intro tests
  induction tests with
  | nil => intro acc; rfl
  | cons t rest ih => intro acc; simp [snapshotsFrom, ih]

theorem snapshotsFrom_getElem? (f : Record → TestResult) :
    ∀ (tests : List Record) (acc : List TestResult) (k : Nat), k < tests.length →
    (snapshotsFrom f acc tests)[k]? = some (acc ++ (tests.take (k + 1)).map f) := by
  intro tests
  induction tests with
  | nil => intro acc k hk; cases hk
  | cons t rest ih =>
      intro acc k hk
      cases k with
      | zero => simp [snapshotsFrom]
      | succ k =>
          have hk' : k < rest.length := by simpa using hk
          rw [snapshotsFrom]
          simp only [List.getElem?_cons_succ]
          rw [ih (acc ++ [f t]) k hk']
          simp [List.take_cons]


theorem csvRow_of_some (names : List String) (tr : TestResult) (qs : String)
    (h : tr.question = some qs) :
    csvRow names tr
      = some ("\t".intercalate
          ([tr.id, tr.category, sanitize qs]
            ++ names.map (fun name => pyTake (sanitize (dictGet tr.responses name "")) 500))
          ++ "\n") := by
  unfold csvRow
  rw [h]

theorem csvLoop_of_all_some (names : List String) :
    ∀ (tests : List TestResult) (acc : String),
    (∀ t ∈ tests, t.question ≠ none) →
    csvLoop names tests acc
      = ((tests.map (fun t => (csvRow names t).getD "")).foldl
          (fun a b => a ++ b) acc, false) := by
  intro tests
  induction tests with
  | nil => intro acc _; rfl
  | cons t rest ih =>
      intro acc h
      have ht : t.question ≠ none := h t (List.mem_cons_self t rest)
      obtain ⟨qs, hqs⟩ := Option.ne_none_iff_exists'.mp ht
      rw [csvLoop, csvRow_of_some names t qs hqs]
      simp only [List.map_cons, List.foldl_cons]
      rw [ih _ (fun x hx => h x (List.mem_cons_of_mem t hx))]
      rw [csvRow_of_some names t qs hqs]
      rfl

theorem csvLoop_aborted (names : List String) :
    ∀ (tests : List TestResult) (acc : String),
    (∃ t ∈ tests, t.question = none) →
    (csvLoop names tests acc).2 = true := by
  intro tests
  induction tests with
  | nil => intro acc h; obtain ⟨t, ht, _⟩ := h; cases ht
  | cons t rest ih =>
      intro acc h
      rw [csvLoop]
      cases hq : t.question with
      | none =>
          rw [show csvRow names t = none by unfold csvRow; rw [hq]]
      | some qs =>
          obtain ⟨t0, ht0, hq0⟩ := h
          rcases List.mem_cons.mp ht0 with h0 | hrest
          · rw [h0] at hq0; rw [hq0] at hq; cases hq
          · rw [csvRow_of_some names t qs hq]
            exact ih _ ⟨t0, hrest, hq0⟩

theorem loadLoop_all_ok (parse : String → Except String Record)
    (f : String → Record) :
    ∀ (lines : List String) (acc : List Record),
    (∀ l ∈ lines, isBlank l = false → parse l = .ok (f l)) →
    loadLoop parse lines acc
      = .ok (acc ++ (lines.filter (fun l => !(isBlank l))).map f) := by
  intro lines
  induction lines with
  | nil => intro acc _; simp [loadLoop]
  | cons l rest ih =>
      intro acc h
      rw [loadLoop]
      cases hb : isBlank l with
      | true =>
          rw [if_pos rfl]
          rw [ih acc (fun x hx hbx => h x (List.mem_cons_of_mem l hx) hbx)]
          simp [List.filter_cons, hb]
      | false =>
          rw [if_neg (by simp)]
          rw [h l (List.mem_cons_self l rest) hb]
          show loadLoop parse rest (acc ++ [f l]) = _
          rw [ih (acc ++ [f l]) (fun x hx hbx => h x (List.mem_cons_of_mem l hx) hbx)]
          simp [List.filter_cons, hb]

theorem loadLoop_err (parse : String → Except String Record) :
    ∀ (lines : List String) (acc : List Record) (l : String) (e : String),
    l ∈ lines → isBlank l = false → parse l = .error e →
    ∃ e0, loadLoop parse lines acc = .error e0 := by
  intro lines
  induction lines with
  | nil => intro acc l e hl _ _; cases hl
  | cons l0 rest ih =>
      intro acc l e hl hb hp
      rw [loadLoop]
      cases hb0 : isBlank l0 with
      | true =>
          rw [if_pos rfl]
          rcases List.mem_cons.mp hl with h0 | hrest
          · rw [h0] at hb; rw [hb0] at hb; cases hb
          · exact ih acc l e hrest hb hp
      | false =>
          rw [if_neg (by simp)]
          rcases List.mem_cons.mp hl with h0 | hrest
          · rw [← h0, hp]
            exact ⟨e, rfl⟩
          · cases hp0 : parse l0 with
            | error e0 => exact ⟨e0, rfl⟩
            | ok r => exact ih (acc ++ [r]) l e hrest hb hp

theorem pyOr_eq_none (a b : Option String)
    (ha : a = none ∨ a = some "") (hb : b = none) :
    pyOr a b = none := by
  rcases ha with h | h <;> subst h <;> subst hb <;> rfl



/-- C2: the Inference Client is total over its failure modes: a timeout
yields exactly `"[TIMEOUT]"`, a success whose payload lacks the
`response` field yields exactly `"[NO RESPONSE]"`, any other failure
with description `e` yields `"[ERROR: " ++ e ++ "]"`, and otherwise the
payload's `response` text is returned.  Totality (one string returned,
nothing raised to the caller) is expressed by `query_ollama` being a
total function on the outcome of the HTTP call. -/
theorem query_ollama_sentinel_contract :
    (query_ollama .timeout = "[TIMEOUT]")
  ∧ (∀ e, query_ollama (.failure e) = "[ERROR: " ++ e ++ "]")
  ∧ (∀ fields, dictGet? fields "response" = none →
        query_ollama (.success fields) = "[NO RESPONSE]")
  ∧ (∀ fields v, dictGet? fields "response" = some v →
        query_ollama (.success fields) = v) := by
  refine ⟨rfl, fun e => rfl, fun fields h => ?_, fun fields v h => ?_⟩
  · simp only [query_ollama, h]
  · simp only [query_ollama, h]

/-- Witness for C2 at concrete outcomes. -/
theorem query_ollama_sentinel_contract_witness :
    query_ollama (.success [("done", "x")]) = "[NO RESPONSE]"
  ∧ query_ollama (.success [("response", "Oslo")]) = "Oslo"
  ∧ query_ollama (.failure "refused") = "[ERROR: refused]" := by
  refine ⟨?_, ?_, ?_⟩
  · exact query_ollama_sentinel_contract.2.2.1 [("done", "x")] rfl
  · exact query_ollama_sentinel_contract.2.2.2 [("response", "Oslo")] "Oslo" rfl
  · exact query_ollama_sentinel_contract.2.1 "refused"

/-- C6: model selection as a function of the two flags: Norwegian-only
wins when set (also when both flags are set), international-only next,
otherwise the concatenation with the Norwegian group first. -/
theorem select_models_resolution :
    select_models true false = NORWEGIAN_MODELS
  ∧ select_models false true = INTERNATIONAL_MODELS
  ∧ select_models false false = NORWEGIAN_MODELS ++ INTERNATIONAL_MODELS
  ∧ select_models true true = NORWEGIAN_MODELS :=
  ⟨rfl, rfl, rfl, rfl⟩

/-- C7: the loader returns exactly the records of the non-blank lines
in file order when every non-blank line parses, and any non-blank line
that fails to parse makes the whole load fail with a parse error,
returning no records at all. -/
theorem load_tests_contract (parse : String → Except String Record)
    (lines : List String) :
    (∀ f : String → Record,
        (∀ l ∈ lines, isBlank l = false → parse l = .ok (f l)) →
        load_tests parse lines
          = .ok ((lines.filter (fun l => !(isBlank l))).map f))
  ∧ (∀ l e, l ∈ lines → isBlank l = false → parse l = .error e →
        ∃ e0, load_tests parse lines = .error e0) := by
  constructor
  · intro f h
    unfold load_tests
    simpa using loadLoop_all_ok parse f lines [] h
  · intro l e hl hb hp
    exact loadLoop_err parse lines [] l e hl hb hp

/-- Witness for C7: a three-line file with one blank line loads to its
two records in order; a failing second line makes the load fail. -/
theorem load_tests_contract_witness :
    load_tests
        (fun l => .ok { id := some l, question := some l, q := none, category := none })
        ["t1", "  ", "t2"]
      = .ok [{ id := some "t1", question := some "t1", q := none, category := none },
             { id := some "t2", question := some "t2", q := none, category := none }]
  ∧ ∃ e0,
      load_tests
          (fun l => if l == "bad"
            then .error "boom"
            else .ok { id := some l, question := some l, q := none, category := none })
          ["t1", "bad"]
        = .error e0 := by
  constructor
  · rw [(load_tests_contract _ _).1
      (fun l => { id := some l, question := some l, q := none, category := none })
      (fun l _ _ => rfl)]
    rfl
  · exact (load_tests_contract _ _).2 "bad" "boom" (by decide) (by rfl) (by rfl)


theorem run_evaluation_eq (client : Client) (ts : String)
    (tests : List Record) (models : List (String × String)) :
    run_evaluation client ts tests models =
      { results :=
          { timestamp := ts, models := models.map (fun m => m.1),
            tests := tests.map (processTest client models) },
        snapshots := (snapshotsFrom (processTest client models) [] tests).map
          (fun l =>
            { timestamp := ts, models := models.map (fun m => m.1), tests := l }),
        csv := csvExport
          { timestamp := ts, models := models.map (fun m => m.1),
            tests := tests.map (processTest client models) } } := by
  unfold run_evaluation
  simp only [runLoop_eq, List.nil_append]


/-- C1: after the (k+1)-st TestCase completes, the snapshot written is
the whole run so far: exactly the first k+1 bundles in order, and every
bundle holds one response for every ModelSpec. -/
theorem snapshot_prefix_consistent (client : Client) (ts : String)
    (tests : List Record) (models : List (String × String)) (k : Nat)
    (hk : k < tests.length) :
    (run_evaluation client ts tests models).snapshots.length = tests.length
  ∧ (run_evaluation client ts tests models).snapshots[k]?
      = some { timestamp := ts, models := models.map (fun m => m.1),
               tests := (tests.take (k + 1)).map (processTest client models) }
  ∧ (∀ tr ∈ (tests.take (k + 1)).map (processTest client models),
        ∀ m ∈ models, ∃ v, dictGet? tr.responses m.1 = some v) := by
  refine ⟨?_, ?_, ?_⟩
  · rw [run_evaluation_eq]
    simp [snapshotsFrom_length]
  · rw [run_evaluation_eq]
    simp only [List.getElem?_map]
    rw [snapshotsFrom_getElem? _ tests [] k hk]
    simp
  · intro tr htr m hm
    obtain ⟨t, ht, rfl⟩ := List.mem_map.mp htr
    exact responses_complete client models t m hm

/-- Witness for C1: a two-test run; the snapshot after the first test
holds exactly the first bundle, complete for both models. -/
theorem snapshot_prefix_consistent_witness :
    ((run_evaluation (fun mid _ => mid) "ts"
        [{ id := some "t1", question := some "Q1", q := none, category := none },
         { id := some "t2", question := some "Q2", q := none, category := none }]
        [("A", "a"), ("B", "b")]).snapshots.length = 2)
  ∧ ((run_evaluation (fun mid _ => mid) "ts"
        [{ id := some "t1", question := some "Q1", q := none, category := none },
         { id := some "t2", question := some "Q2", q := none, category := none }]
        [("A", "a"), ("B", "b")]).snapshots[0]?
      = some { timestamp := "ts", models := ["A", "B"],
               tests := [{ id := "t1", question := some "Q1", category := "general",
                           responses := [("A", "a"), ("B", "b")] }] }) := by
  have h := snapshot_prefix_consistent (fun mid _ => mid) "ts"
    [{ id := some "t1", question := some "Q1", q := none, category := none },
     { id := some "t2", question := some "Q2", q := none, category := none }]
    [("A", "a"), ("B", "b")] 0 (by decide)
  refine ⟨h.1, ?_⟩
  rw [h.2.1]
  rfl


/-- C3 counterexample: with zero TestCases the driver loop never runs,
so no snapshot write ever happens (the structured JSON file is never
created), and with zero ModelSpecs the bundle sequence is not empty:
one bundle per TestCase is still appended. -/
theorem degenerate_run_cex :
    (run_evaluation (fun _ _ => "r") "ts" [] [("A", "a")]).snapshots = []
  ∧ (run_evaluation (fun _ _ => "r") "ts"
        [{ id := some "t1", question := some "x", q := none, category := some "c" }]
        []).results.tests ≠ [] := by
  constructor
  · rfl
  · decide

/-- C3 amended: with zero TestCases the run completes with an empty
bundle sequence, never writes the JSON snapshot, and writes the CSV
with only the header row; with zero ModelSpecs the run completes with
one bundle per TestCase (each with an empty response mapping), writes a
snapshot after every TestCase, and the CSV export completes whenever
every record yields a question. -/
theorem degenerate_run_amended (client : Client) (ts : String) :
    (∀ models : List (String × String),
        (run_evaluation client ts [] models).results.tests = []
      ∧ (run_evaluation client ts [] models).snapshots = []
      ∧ (run_evaluation client ts [] models).csv
          = ("\t".intercalate
               (["ID", "Category", "Question"] ++ models.map (fun m => m.1)) ++ "\n",
             false))
  ∧ (∀ tests : List Record,
        (run_evaluation client ts tests []).results.tests
          = tests.map (processTest client [])
      ∧ (∀ tr ∈ (run_evaluation client ts tests []).results.tests, tr.responses = [])
      ∧ (run_evaluation client ts tests []).snapshots.length = tests.length
      ∧ ((∀ t ∈ tests, pyOr t.question t.q ≠ none) →
          (run_evaluation client ts tests []).csv.2 = false)) := by
  constructor
  · intro models
    exact ⟨rfl, rfl, rfl⟩
  · intro tests
    refine ⟨?_, ?_, ?_, ?_⟩
    · rw [run_evaluation_eq]
    · rw [run_evaluation_eq]
      intro tr htr
      obtain ⟨t, ht, rfl⟩ := List.mem_map.mp htr
      rfl
    · rw [run_evaluation_eq]
      simp [snapshotsFrom_length]
    · intro h
      rw [run_evaluation_eq]
      show (csvLoop _ _ _).2 = false
      rw [csvLoop_of_all_some]
      intro tr htr
      obtain ⟨t, ht, rfl⟩ := List.mem_map.mp htr
      exact h t ht

/-- Witness for C3 (amended) at a concrete client and inputs. -/
theorem degenerate_run_amended_witness :
    (run_evaluation (fun _ _ => "r") "ts" [] [("A", "a")]).csv
      = ("ID\tCategory\tQuestion\tA\n", false)
  ∧ (run_evaluation (fun _ _ => "r") "ts"
        [{ id := some "t1", question := some "x", q := none, category := some "c" }]
        []).snapshots.length = 1
  ∧ (run_evaluation (fun _ _ => "r") "ts"
        [{ id := some "t1", question := some "x", q := none, category := some "c" }]
        []).csv.2 = false := by
  have h1 := (degenerate_run_amended (fun _ _ => "r") "ts").1 [("A", "a")]
  have h2 := (degenerate_run_amended (fun _ _ => "r") "ts").2
    [{ id := some "t1", question := some "x", q := none, category := some "c" }]
  refine ⟨?_, h2.2.2.1, h2.2.2.2 (by decide)⟩
  rw [h1.2.2]
  rfl


/-- C4 counterexample: a TestCase whose id contains a tab is written to
the CSV data row with the tab intact — the ID cell (and likewise the
Category cell) is not sanitized, contradicting the claim that every
text field in a data row has tabs and newlines replaced. -/
theorem csv_unsanitized_id_cex :
    (run_evaluation (fun _ _ => "r") "ts"
        [{ id := some "a\tb", question := some "x", q := none, category := some "c" }]
        []).csv.1
      = "ID\tCategory\tQuestion\na\tb\tc\tx\n"
  ∧ (run_evaluation (fun _ _ => "r") "ts"
        [{ id := some "a\tb", question := some "x", q := none, category := some "c" }]
        []).csv.1
      ≠ "ID\tCategory\tQuestion\na b\tc\tx\n" := by
  refine ⟨rfl, ?_⟩
  rw [show (run_evaluation (fun _ _ => "r") "ts"
        [{ id := some "a\tb", question := some "x", q := none, category := some "c" }]
        []).csv.1
      = "ID\tCategory\tQuestion\na\tb\tc\tx\n" from rfl]
  decide

/-- C4 amended: in a CSV data row only the Question cell and the model
response cells have tabs and newlines replaced by single spaces (and
only response cells are truncated to 500 characters); the ID and
Category cells are written verbatim. -/
theorem csv_sanitization_scope (names : List String) (tr : TestResult)
    (qs : String) (h : tr.question = some qs) :
    csvRow names tr
      = some ("\t".intercalate
          ([tr.id, tr.category, sanitize qs]
            ++ names.map (fun name => pyTake (sanitize (dictGet tr.responses name "")) 500))
          ++ "\n") :=
  csvRow_of_some names tr qs h

/-- Witness for C4 (amended): a row whose id, category, question and
response all contain tabs or newlines; only the latter two are
sanitized. -/
theorem csv_sanitization_scope_witness :
    csvRow ["A"]
        { id := "a\tb", question := some "x\ny", category := "c\td",
          responses := [("A", "r\te")] }
      = some "a\tb\tc\td\tx y\tr e\n" := by
  rw [csv_sanitization_scope ["A"]
      { id := "a\tb", question := some "x\ny", category := "c\td",
        responses := [("A", "r\te")] } "x\ny" rfl]
  rfl


set_option maxRecDepth 4000

/-- C5: when every record yields a question, the CSV is the tab-joined
header row (ID, Category, Question, then one column per model display
name in run order) followed by one row per bundle in run order, each
row being id, category, sanitized question, then each model's response
sanitized and truncated to 500 characters (see `csvRow`); and on the
spec's concrete example the single data row is exactly
id, category, question, Oslo, [ERROR: refused], joined by tabs. -/
theorem csv_shape_and_example (client : Client) (ts : String)
    (tests : List Record) (models : List (String × String))
    (h : ∀ t ∈ tests, pyOr t.question t.q ≠ none) :
    (run_evaluation client ts tests models).csv
      = (((tests.map (processTest client models)).map
            (fun tr => (csvRow (models.map (fun m => m.1)) tr).getD "")).foldl
          (fun a b => a ++ b)
          ("\t".intercalate
            (["ID", "Category", "Question"] ++ models.map (fun m => m.1)) ++ "\n"),
         false)
  ∧ (run_evaluation
        (fun mid _ => if mid == "a-id" then "Oslo" else "[ERROR: refused]") "ts"
        [{ id := some "t1", question := some "Hva er hovedstaden i Norge?",
           q := none, category := some "geo" }]
        [("A", "a-id"), ("B", "b-id")]).csv
      = ("ID\tCategory\tQuestion\tA\tB\nt1\tgeo\tHva er hovedstaden i Norge?\tOslo\t[ERROR: refused]\n",
         false) := by
  constructor
  · rw [run_evaluation_eq]
    show csvLoop _ _ _ = _
    rw [csvLoop_of_all_some]
    intro tr htr
    obtain ⟨t, ht, rfl⟩ := List.mem_map.mp htr
    exact h t ht
  · rfl

/-- Witness for C5: the general shape applied at a concrete run. -/
theorem csv_shape_and_example_witness :
    (run_evaluation (fun _ _ => "Oslo") "ts"
        [{ id := some "t1", question := some "Q", q := none, category := some "geo" }]
        [("A", "a-id")]).csv
      = ("ID\tCategory\tQuestion\tA\nt1\tgeo\tQ\tOslo\n", false) := by
  rw [(csv_shape_and_example (fun _ _ => "Oslo") "ts"
      [{ id := some "t1", question := some "Q", q := none, category := some "geo" }]
      [("A", "a-id")] (by decide)).1]
  rfl


/-- C9: a record with neither a non-empty `question` nor a `q` field
does not fail at load or query time: its bundle's question is `None`,
every model is still queried (a response is recorded for each), every
JSON snapshot is still written (one per TestCase), but the CSV export
aborts with an unhandled error, leaving the JSON as the only complete
artifact. -/
theorem missing_question_behavior (client : Client) (ts : String)
    (tests : List Record) (models : List (String × String)) (rec : Record)
    (hq : rec.question = none ∨ rec.question = some "") (hqq : rec.q = none)
    (hmem : rec ∈ tests) :
    (processTest client models rec).question = none
  ∧ (∀ m ∈ models, ∃ v, dictGet? (processTest client models rec).responses m.1 = some v)
  ∧ (run_evaluation client ts tests models).snapshots.length = tests.length
  ∧ (run_evaluation client ts tests models).csv.2 = true := by
  have hnone : (processTest client models rec).question = none :=
    pyOr_eq_none rec.question rec.q hq hqq
  refine ⟨hnone, ?_, ?_, ?_⟩
  · intro m hm
    exact responses_complete client models rec m hm
  · rw [run_evaluation_eq]
    simp [snapshotsFrom_length]
  · rw [run_evaluation_eq]
    show (csvLoop _ _ _).2 = true
    apply csvLoop_aborted
    exact ⟨processTest client models rec, List.mem_map_of_mem _ hmem, hnone⟩

/-- Witness for C9 at a concrete run with one question-less record. -/
theorem missing_question_behavior_witness :
    (processTest (fun _ _ => "r") [("A", "a")]
        { id := some "t1", question := none, q := none, category := none }).question
      = none
  ∧ (run_evaluation (fun _ _ => "r") "ts"
        [{ id := some "t1", question := none, q := none, category := none }]
        [("A", "a")]).snapshots.length = 1
  ∧ (run_evaluation (fun _ _ => "r") "ts"
        [{ id := some "t1", question := none, q := none, category := none }]
        [("A", "a")]).csv.2 = true := by
  have h := missing_question_behavior (fun _ _ => "r") "ts"
    [{ id := some "t1", question := none, q := none, category := none }]
    [("A", "a")]
    { id := some "t1", question := none, q := none, category := none }
    (Or.inl rfl) rfl (by decide)
  exact ⟨h.1, h.2.2.1, h.2.2.2⟩

/-- C10: responses are keyed by display name only, so of several models
sharing a display name only the last one queried survives in the
bundle, and every CSV column bearing that display name repeats that
single retained value. -/
theorem duplicate_display_name_retention (client : Client)
    (models : List (String × String)) (rec : Record) (name mid : String)
    (h : lastBackend models name = some mid) :
    dictGet? (processTest client models rec).responses name
      = some (client mid (pyOr rec.question rec.q))
  ∧ (∀ n ∈ models.map (fun m => m.1), n = name →
        pyTake (sanitize (dictGet (processTest client models rec).responses n "")) 500
          = pyTake (sanitize (client mid (pyOr rec.question rec.q))) 500) := by
  have h1 : dictGet? (processTest client models rec).responses name
      = some (client mid (pyOr rec.question rec.q)) := by
    show dictGet? (models.foldl _ []) name = _
    rw [dictGet?_fold]
    simp [h]
  refine ⟨h1, ?_⟩
  intro n _ hn
  subst hn
  rw [dictGet_eq_getD, h1]
  rfl

/-- Witness for C10: two models both displayed as `A`; the bundle keeps
only the second one's response. -/
theorem duplicate_display_name_retention_witness :
    dictGet? (processTest (fun mid _ => "resp-" ++ mid) [("A", "a1"), ("A", "a2")]
        { id := some "t1", question := some "Q", q := none, category := none }).responses
        "A"
      = some "resp-a2" := by
  exact (duplicate_display_name_retention (fun mid _ => "resp-" ++ mid)
    [("A", "a1"), ("A", "a2")]
    { id := some "t1", question := some "Q", q := none, category := none }
    "A" "a2" rfl).1

/-- C8: field resolution for a loaded record: the bundle's question is
the record's non-empty `question` value when present, otherwise the
record's `q` value; the id defaults to `"unknown"` and the category to
`"general"` when the field is absent. -/
theorem testcase_field_resolution (client : Client)
    (models : List (String × String)) (rec : Record) :
    (∀ s, rec.question = some s → s.isEmpty = false →
        (processTest client models rec).question = some s)
  ∧ ((rec.question = none ∨ rec.question = some "") →
        (processTest client models rec).question = rec.q)
  ∧ (rec.id = none → (processTest client models rec).id = "unknown")
  ∧ (rec.category = none → (processTest client models rec).category = "general") := by
  refine ⟨?_, ?_, ?_, ?_⟩
  · intro s hs he
    show pyOr rec.question rec.q = some s
    rw [hs]
    simp [pyOr, he]
  · intro h
    show pyOr rec.question rec.q = rec.q
    rcases h with h | h <;> rw [h] <;> rfl
  · intro h
    show rec.id.getD "unknown" = "unknown"
    rw [h]
    rfl
  · intro h
    show rec.category.getD "general" = "general"
    rw [h]
    rfl

/-- Witness for C8 at concrete records. -/
theorem testcase_field_resolution_witness :
    (processTest (fun _ _ => "r") []
        { id := none, question := some "Q", q := some "alt", category := none }).question
      = some "Q"
  ∧ (processTest (fun _ _ => "r") []
        { id := none, question := some "", q := some "alt", category := none }).question
      = some "alt"
  ∧ (processTest (fun _ _ => "r") []
        { id := none, question := some "Q", q := none, category := none }).id
      = "unknown"
  ∧ (processTest (fun _ _ => "r") []
        { id := none, question := some "Q", q := none, category := none }).category
      = "general" := by
  refine ⟨?_, ?_, ?_, ?_⟩
  · exact (testcase_field_resolution _ _ _).1 "Q" rfl rfl
  · exact (testcase_field_resolution _ _ _).2.1 (Or.inr rfl)
  · exact (testcase_field_resolution _ _ _).2.2.1 rfl
  · exact (testcase_field_resolution _ _ _).2.2.2 rfl

end EvalRunner
